import Mathlib

/-!
Shallow embedding of the OfflineImageStore engine
(react-native-image-offline, file OfflineImageStore.js).

Conventions of the embedding:
* JavaScript objects used as string-keyed dictionaries (`this.entries`,
  `this.handlers`) become association lists with unique-key JS object
  semantics: insertion keeps the position of an existing key and appends a
  fresh key at the end; `delete` removes the key.
* Timestamps (`new Date()`, `Date` parsing in `_addTime`) are modelled as
  seconds since the epoch (`Nat`); `_addTime date seconds` is addition and
  `Date` comparison is `<` on `Nat`.
* Asynchronous effects (RNFetchBlob fetch/unlink, AsyncStorage get/set,
  the restore-completion callback) are modelled by explicit outcome
  parameters (`Bool` success flags) and by returning the sequence of
  externally visible events a run produces.
* Debug-mode `console.log` calls have no observable effect and are omitted.
-/

namespace OfflineStore

/-! ## JavaScript string primitives used by `_getEntryProps` -/

/-- Chars of `l` before the first occurrence of `c`; JS `s.split(c)[0]`. -/
def takeBefore (c : Char) : List Char → List Char
  | [] => []
  | x :: xs => if x = c then [] else x :: takeBefore c xs

/-- JS `s.split(c)[0]` on strings. -/
def splitFirst (c : Char) (s : String) : String :=
  String.mk (takeBefore c s.data)

/-- Suffix of `l` starting at the last occurrence of `c` (inclusive),
`none` when `c` does not occur. -/
def suffixFromLast (c : Char) : List Char → Option (List Char)
  | [] => none
  | x :: xs =>
    match suffixFromLast c xs with
    | some r => some r
    | none => if x = c then some (x :: xs) else none

/-- JS `s.substring(s.lastIndexOf(c))`: when `c` is absent `lastIndexOf`
is `-1` and `substring` clamps it to `0`, returning the whole string. -/
def jsSubstringFromLast (c : Char) (s : String) : String :=
  match suffixFromLast c s.data with
  | some r => String.mk r
  | none => s

/-- JS `s.indexOf(c) !== -1`. -/
def jsContainsChar (c : Char) (s : String) : Bool :=
  s.data.contains c

/-! ## Key derivation (`_getEntryProps`) -/

/-- Model of the external crypto-js `SHA1` digest (already rendered as its
string form, as the store only ever uses the digest as an object key or
inside a template literal). The library is not part of this repository;
the development relies only on the digest being a fixed deterministic
function of the input string. -/
def SHA1 (s : String) : String :=
  toString (s.data.foldl (fun h c => (h * 31 + c.toNat) % 2 ^ 160) 7)

/-- The per-request input: `props.id`, `props.ignoreQueryString`,
`props.source.uri`.  `id` is `none` when the prop is absent. -/
structure Descriptor where
  id : Option String
  ignoreQueryString : Bool
  uri : String
deriving Repr, DecidableEq

/-- JS truthiness of the optional `id` string: `undefined` and the empty
string are falsy, every other string is truthy. -/
def jsTruthy : Option String → Bool
  | none => false
  | some s => !s.isEmpty

/-- Result of `_getEntryProps`. -/
structure EntryProps where
  hash : String
  extension : String
deriving Repr, DecidableEq

/-- `_getEntryProps` (OfflineImageStore.js lines 303–310). -/
def getEntryProps (d : Descriptor) : EntryProps :=
  let path := splitFirst '?' (jsSubstringFromLast '/' d.uri)
  let extension :=
    if jsContainsChar '.' path then jsSubstringFromLast '.' path else ".jpg"
  let hash :=
    if jsTruthy d.id then d.id.getD ""
    else SHA1 (if d.ignoreQueryString then splitFirst '?' d.uri else d.uri)
  ⟨hash, extension⟩

/-! ## Entries (`this.entries`) -/

/-- A value of `this.entries[hash]`. -/
structure Entry where
  createdOn : Nat
  basePath : String
  localUriPath : String
deriving Repr, DecidableEq

/-- The `this.entries` dictionary, in key insertion order. -/
abbrev Entries := List (String × Entry)

/-- JS `this.entries[k]` (`undefined` becomes `none`). -/
def lookupEntry : Entries → String → Option Entry
  | [], _ => none
  | p :: rest, k => if p.1 = k then some p.2 else lookupEntry rest k

/-- JS `delete this.entries[k]`. -/
def eraseKey (es : Entries) (k : String) : Entries :=
  es.filter fun p => decide (p.1 ≠ k)

/-- JS `this.entries[k] = e`: replace in place when the key exists,
append at the end otherwise. -/
def setEntry (es : Entries) (k : String) (e : Entry) : Entries :=
  if (lookupEntry es k).isSome then
    es.map fun p => if p.1 = k then (k, e) else p
  else es ++ [(k, e)]

/-! ## Store state and base directory -/

/-- The mutable singleton state the claims depend on: `this.entries` and
`this.store` (`debugMode` only gates logging and is omitted).  The
platform cache root `RNFetchBlob.fs.dirs.CacheDir` is an external
constant and is passed explicitly as `cacheDir` where needed. -/
structure StoreState where
  entries : Entries
  name : String
  storeImageTimeout : Nat
deriving Repr

/-- `getBaseDir` (lines 38–40). -/
def getBaseDir (cacheDir name : String) : String :=
  cacheDir ++ "/" ++ name

/-! ## `getImageOfflinePath` (lines 211–226) -/

def getImageOfflinePath (st : StoreState) (cacheDir : String)
    (d : Descriptor) : Option String :=
  match lookupEntry st.entries (getEntryProps d).hash with
  | some entry =>
    if entry.basePath = getBaseDir cacheDir st.name then
      some (entry.basePath ++ "/" ++ entry.localUriPath)
    else none
  | none => none

/-! ## `_addEntry` (lines 312–326) -/

/-- `_addEntry hash localUriPath`: returns the updated dictionary and the
entry that was stored. `now` models `new Date()` at the call. -/
def addEntry (es : Entries) (baseDir : String) (now : Nat)
    (hash localUriPath : String) : Entries × Entry :=
  match lookupEntry es hash with
  | some entry =>
    let e2 : Entry := { entry with basePath := baseDir, localUriPath := localUriPath }
    (setEntry es hash e2, e2)
  | none =>
    let e2 : Entry := ⟨now, baseDir, localUriPath⟩
    (setEntry es hash e2, e2)

/-! ## Handlers (`this.handlers`) and `_notify` (lines 286–296) -/

/-- A subscribed handler: an observable identifier plus its behaviour
when called with `(uri, path)` — either it returns (`Except.ok`) or it
throws a JS exception (`Except.error`). -/
structure Handler where
  id : Nat
  run : String → String → Except String Unit

/-- The `this.handlers` dictionary: uri → registered handler list, in
registration order. -/
abbrev Handlers := List (String × List Handler)

/-- JS `this.handlers[uri]`. -/
def lookupHandlers : Handlers → String → Option (List Handler)
  | [], _ => none
  | p :: rest, uri => if p.1 = uri then some p.2 else lookupHandlers rest uri

/-- One observed handler call. -/
structure Invocation where
  handlerId : Nat
  uri : String
  path : String
deriving Repr, DecidableEq

/-- JS `handlers.forEach(handler => handler(uri, path))`: handlers run in
list order; an exception thrown by a handler propagates out of `forEach`,
so the handlers after it never run.  Returns the calls that happened (the
throwing handler included) and the propagated exception, if any. -/
def runHandlers : List Handler → String → String → List Invocation × Option String
  | [], _, _ => ([], none)
  | h :: rest, uri, path =>
    match h.run uri path with
    | Except.ok _ =>
      let r := runHandlers rest uri path
      (⟨h.id, uri, path⟩ :: r.1, r.2)
    | Except.error e => ([⟨h.id, uri, path⟩], some e)

/-- `_notify uri entry` (lines 286–296). -/
def notify (hs : Handlers) (uri : String) (entry : Entry) :
    List Invocation × Option String :=
  match lookupHandlers hs uri with
  | some handlers =>
    if handlers.length > 0 then
      runHandlers handlers uri (entry.basePath ++ "/" ++ entry.localUriPath)
    else ([], none)
  | none => ([], none)

/-! ## AsyncStorage keys and serialization -/

/-- JS `JSON.stringify` of an entry value. -/
def stringifyEntry (e : Entry) : String :=
  "\x7b\"createdOn\":" ++ toString e.createdOn ++
    ",\"basePath\":\"" ++ e.basePath ++
    "\",\"localUriPath\":\"" ++ e.localUriPath ++ "\"\x7d"

/-- JS `JSON.stringify(this.entries)`: the full dictionary as one blob. -/
def stringifyEntries (es : Entries) : String :=
  "\x7b" ++
    String.intercalate ","
      (es.map fun p => "\"" ++ p.1 ++ "\":" ++ stringifyEntry p.2) ++
  "\x7d"

/-- The AsyncStorage key read by `restore` (line 64). -/
def restoreReadKey (name : String) : String := "@" ++ name ++ ":uris"

/-- The AsyncStorage write performed by `_updateAsyncStorage`
(lines 203–209): key and serialized value. -/
def updateAsyncStorageWrite (st : StoreState) : String × String :=
  ("@" ++ st.name ++ ":uris", stringifyEntries st.entries)

/-- The AsyncStorage key written by `_updateOfflineStore` (line 330). -/
def updateOfflineStoreKey (name : String) : String := "@" ++ name ++ ":uris"

/-! ## `_downloadImage` (lines 263–284) and `_updateOfflineStore`
(lines 328–339) -/

/-- Observable outcome of one `_downloadImage` call.  `persistWrites` are
the AsyncStorage writes that landed; `notifications` the handler calls
that happened. -/
structure DownloadResult where
  entries : Entries
  persistWrites : List (String × String)
  notifications : List Invocation

/-- `_downloadImage props`, with the outcomes of the two external effects
made explicit: `fetchOk` is whether `RNFetchBlob.fetch` (the network
transfer together with the write to `getBaseDir/filename`) succeeded, and
`persistOk` whether `AsyncStorage.setItem` inside `_updateOfflineStore`
succeeded.  On fetch failure the `catch` only logs; on persist failure the
`catch` in `_updateOfflineStore` only logs, so `_notify` never runs. -/
def downloadImage (st : StoreState) (cacheDir : String) (now : Nat)
    (d : Descriptor) (fetchOk persistOk : Bool) (hs : Handlers) :
    DownloadResult :=
  let props := getEntryProps d
  let filename := props.hash ++ props.extension
  if fetchOk then
    let r := addEntry st.entries (getBaseDir cacheDir st.name) now props.hash filename
    if persistOk then
      { entries := r.1
        persistWrites := [(updateOfflineStoreKey st.name, stringifyEntries r.1)]
        notifications := (notify hs d.uri r.2).1 }
    else
      { entries := r.1, persistWrites := [], notifications := [] }
  else
    { entries := st.entries, persistWrites := [], notifications := [] }

/-! ## Expiry sweep (`_getExpiredImages`, `_removeExpiredImages`,
`_updateAsyncStorage`, lines 134–209) -/

/-- `_addTime date seconds` (lines 341–345) under the Nat time model. -/
def addTime (date seconds : Nat) : Nat := date + seconds

/-- `_getExpiredImages` (lines 134–146): keys whose
`createdOn + storeImageTimeout < now`, in dictionary order. -/
def getExpiredImages (st : StoreState) (now : Nat) : List String :=
  (st.entries.filter fun p =>
    decide (addTime p.2.createdOn st.storeImageTimeout < now)).map Prod.fst

/-- The path `_removeExpiredImages` passes to `RNFetchBlob.fs.unlink`
for a key (computed from the pre-sweep dictionary, since all unlink calls
are issued before any completion callback runs). -/
def entryPath (es : Entries) (uri : String) : String :=
  match lookupEntry es uri with
  | some e => e.basePath ++ "/" ++ e.localUriPath
  | none => "undefined/undefined"

/-- Externally visible events of a sweep run, in order. -/
inductive Event where
  | unlink (path : String) (ok : Bool)
  | persist (key : String) (value : String)
  | complete
deriving Repr, DecidableEq

def isPersistEv : Event → Bool
  | Event.persist _ _ => true
  | _ => false

def isUnlinkEv : Event → Bool
  | Event.unlink _ _ => true
  | _ => false

/-- Result of one `_removeExpiredImages` run. -/
structure SweepResult where
  entries : Entries
  trace : List Event
deriving Repr, DecidableEq

/-- The unlink calls a sweep issues, one per expired key, in key order;
all are issued against the pre-sweep dictionary before any completion
callback runs. -/
def sweepUnlinkEvents (st : StoreState) (now : Nat)
    (unlinkOk : String → Bool) : List Event :=
  (getExpiredImages st now).map fun uri =>
    Event.unlink (entryPath st.entries uri) (unlinkOk uri)

/-- The dictionary after the sweep's unlink completion callbacks ran: a
key is deleted in its unlink's `.then` branch only, so only keys whose
unlink succeeded are removed. -/
def sweepEntries (st : StoreState) (now : Nat)
    (unlinkOk : String → Bool) : Entries :=
  (getExpiredImages st now).foldl
    (fun es uri => if unlinkOk uri then eraseKey es uri else es) st.entries

/-- `_removeExpiredImages onRestoreCompletion` (lines 151–198), with the
outcome of each `RNFetchBlob.fs.unlink` given by `unlinkOk`.  Because
every unlink promise carries its own `.catch` (which only logs),
`Promise.all` always resolves.  With at least one expired key the run
therefore ends with `_updateAsyncStorage` (one AsyncStorage write) and
then the completion callback; with none it calls the completion callback
directly, without touching AsyncStorage. -/
def removeExpiredImages (st : StoreState) (now : Nat)
    (unlinkOk : String → Bool) : SweepResult :=
  if (getExpiredImages st now).isEmpty then
    { entries := st.entries, trace := [Event.complete] }
  else
    { entries := sweepEntries st now unlinkOk
      trace := sweepUnlinkEvents st now unlinkOk ++
        [Event.persist ("@" ++ st.name ++ ":uris")
          (stringifyEntries (sweepEntries st now unlinkOk)),
         Event.complete] }

/-! ## `_getImage` (lines 228–261): the download decision -/

/-- Whether one `_getImage props` call reaches `_downloadImage`.  The
decision reads only `this.entries` at call time: with no entry, or an
entry whose `basePath` differs from the current base directory, it
downloads; with a valid entry it notifies and downloads again only when
`reloadImage` is set. -/
def getImageIssuesDownload (st : StoreState) (cacheDir : String)
    (d : Descriptor) (reloadImage : Bool) : Bool :=
  match lookupEntry st.entries (getEntryProps d).hash with
  | some entry =>
    if entry.basePath = getBaseDir cacheDir st.name then reloadImage else true
  | none => true

/-- Number of downloads issued by a batch of requests that all start
before any of their fetches completes: `this.entries` is mutated only in
a fetch completion callback (`_downloadImage`'s `.then`), so every
request in the batch sees the same dictionary, and there is no in-flight
bookkeeping that could coalesce them. -/
def concurrentDownloads (st : StoreState) (cacheDir : String)
    (reqs : List (Descriptor × Bool)) : Nat :=
  (reqs.filter fun r => getImageIssuesDownload st cacheDir r.1 r.2).length

/-! ## Dictionary and string helper lemmas -/

theorem string_append_left_cancel (p a b : String)
    (h : p ++ a = p ++ b) : a = b := by
  apply String.ext
  have hd := congrArg String.data h
  simpa [String.data_append] using hd

theorem lookupEntry_map_replace (es : Entries) (k : String) (e : Entry)
    (h : (lookupEntry es k).isSome = true) :
    lookupEntry (es.map fun p => if p.1 = k then (k, e) else p) k = some e := by
  induction es with
  | nil => simp [lookupEntry] at h
  | cons p rest ih =>
    by_cases hp : p.1 = k
    · simp [lookupEntry, hp]
    · simp [lookupEntry, hp] at h ⊢
      exact ih h

theorem lookupEntry_append_single (es : Entries) (k : String) (e : Entry)
    (h : lookupEntry es k = none) :
    lookupEntry (es ++ [(k, e)]) k = some e := by
  induction es with
  | nil => simp [lookupEntry]
  | cons p rest ih =>
    by_cases hp : p.1 = k
    · simp [lookupEntry, hp] at h
    · simp [lookupEntry, hp] at h ⊢
      exact ih h

theorem lookupEntry_setEntry_self (es : Entries) (k : String) (e : Entry) :
    lookupEntry (setEntry es k e) k = some e := by
  unfold setEntry
  split
  · exact lookupEntry_map_replace es k e (by assumption)
  · apply lookupEntry_append_single
    rename_i h
    exact Option.not_isSome_iff_eq_none.mp h

theorem lookupEntry_eraseKey (es : Entries) (k k' : String) :
    lookupEntry (eraseKey es k') k =
      if k = k' then none else lookupEntry es k := by
  induction es with
  | nil => simp [eraseKey, lookupEntry]
  | cons p rest ih =>
    simp only [eraseKey, List.filter_cons] at *
    by_cases hp : p.1 = k' <;> by_cases hk : k = k' <;>
      by_cases hpk : p.1 = k <;>
      simp_all [lookupEntry]

theorem lookupEntry_sweepFold (unlinkOk : String → Bool) (L : List String)
    (es : Entries) (k : String) :
    lookupEntry
      (L.foldl (fun es uri => if unlinkOk uri then eraseKey es uri else es) es) k =
      if k ∈ L ∧ unlinkOk k = true then none else lookupEntry es k := by
  induction L generalizing es with
  | nil => simp
  | cons a L ih =>
    simp only [List.foldl_cons]
    rw [ih]
    by_cases ha : unlinkOk a <;> by_cases hk : k = a <;>
      by_cases hL : k ∈ L ∧ unlinkOk k = true <;>
      simp_all [lookupEntry_eraseKey]

/-! ## Claim theorems -/

/-- C1: the derived cache key is the descriptor's explicit `id` when that
is a non-empty string, and otherwise the SHA1 digest of the uri, with the
query string stripped first when `ignoreQueryString` is set; hence two
descriptors with the same non-empty explicit `id`, or both without one
and with the same uri-after-policy, derive the same key. -/
theorem deriveKey_spec :
    (∀ (d : Descriptor) (s : String), d.id = some s → s ≠ "" →
      (getEntryProps d).hash = s) ∧
    (∀ d : Descriptor, d.id = none ∨ d.id = some "" →
      (getEntryProps d).hash =
        SHA1 (if d.ignoreQueryString then splitFirst '?' d.uri else d.uri)) ∧
    (∀ (d₁ d₂ : Descriptor) (s : String), d₁.id = some s → d₂.id = some s →
      s ≠ "" → (getEntryProps d₁).hash = (getEntryProps d₂).hash) ∧
    (∀ d₁ d₂ : Descriptor, d₁.id = none ∨ d₁.id = some "" →
      d₂.id = none ∨ d₂.id = some "" →
      (if d₁.ignoreQueryString then splitFirst '?' d₁.uri else d₁.uri) =
        (if d₂.ignoreQueryString then splitFirst '?' d₂.uri else d₂.uri) →
      (getEntryProps d₁).hash = (getEntryProps d₂).hash) := by
  have hempty : ∀ s : String, s ≠ "" → s.isEmpty = false := by
    intro s hs
    cases he : s.isEmpty with
    | false => rfl
    | true => exact absurd ((String.isEmpty_iff s).mp he) hs
  have h1 : ∀ (d : Descriptor) (s : String), d.id = some s → s ≠ "" →
      (getEntryProps d).hash = s := by
    intro d s hid hs
    simp [getEntryProps, jsTruthy, hid, hempty s hs]
  have hE : ("" : String).isEmpty = true := rfl
  have h2 : ∀ d : Descriptor, d.id = none ∨ d.id = some "" →
      (getEntryProps d).hash =
        SHA1 (if d.ignoreQueryString then splitFirst '?' d.uri else d.uri) := by
    intro d hid
    rcases hid with h | h <;> simp [getEntryProps, jsTruthy, h, hE]
  refine ⟨h1, h2, ?_, ?_⟩
  · intro d₁ d₂ s a b c
    rw [h1 d₁ s a c, h1 d₂ s b c]
  · intro d₁ d₂ a b c
    rw [h2 d₁ a, h2 d₂ b, c]

/-- C1 witness: the explicit identity "logo" overrides the uri-derived
hash, and two id-less descriptors whose uris agree once the query string
is stripped share a key. -/
theorem deriveKey_spec_witness :
    (getEntryProps ⟨some "logo", false, "https://cdn.x/img.png?v=2"⟩).hash =
      "logo" ∧
    (getEntryProps ⟨none, true, "https://cdn.x/img.png?v=2"⟩).hash =
      (getEntryProps ⟨none, true, "https://cdn.x/img.png?v=7"⟩).hash :=
  ⟨deriveKey_spec.1 ⟨some "logo", false, "https://cdn.x/img.png?v=2"⟩ "logo"
      rfl (by decide),
   deriveKey_spec.2.2.2 ⟨none, true, "https://cdn.x/img.png?v=2"⟩
      ⟨none, true, "https://cdn.x/img.png?v=7"⟩ (Or.inl rfl) (Or.inl rfl)
      (by decide)⟩

/-- C2: `getImageOfflinePath` returns a local path exactly when an entry
exists for the derived key and its `basePath` equals the current base
directory; consequently, after the store name changes, a descriptor whose
entry was recorded under the old base directory resolves to `none` even
though the entry is still in the dictionary. -/
theorem getImageOfflinePath_spec (st : StoreState) (cacheDir : String)
    (d : Descriptor) :
    (∀ p, getImageOfflinePath st cacheDir d = some p ↔
      ∃ e, lookupEntry st.entries (getEntryProps d).hash = some e ∧
        e.basePath = getBaseDir cacheDir st.name ∧
        p = e.basePath ++ "/" ++ e.localUriPath) ∧
    (∀ e oldName, lookupEntry st.entries (getEntryProps d).hash = some e →
      e.basePath = getBaseDir cacheDir oldName → oldName ≠ st.name →
      getImageOfflinePath st cacheDir d = none) := by
  have hpath : ∀ p, getImageOfflinePath st cacheDir d = some p ↔
      ∃ e, lookupEntry st.entries (getEntryProps d).hash = some e ∧
        e.basePath = getBaseDir cacheDir st.name ∧
        p = e.basePath ++ "/" ++ e.localUriPath := by
    intro p
    cases hlook : lookupEntry st.entries (getEntryProps d).hash with
    | none => simp [getImageOfflinePath, hlook]
    | some entry =>
      by_cases hbase : entry.basePath = getBaseDir cacheDir st.name
      · simp [getImageOfflinePath, hlook, hbase, eq_comm]
      · simp [getImageOfflinePath, hlook, hbase]
  refine ⟨hpath, ?_⟩
  intro e oldName hlook hbase hne
  cases hc : getImageOfflinePath st cacheDir d with
  | none => rfl
  | some p =>
    exfalso
    obtain ⟨e', he', hb', _⟩ := (hpath p).mp hc
    rw [hlook] at he'
    obtain rfl : e = e' := Option.some_injective _ he'
    have : getBaseDir cacheDir oldName = getBaseDir cacheDir st.name :=
      hbase.symm.trans hb'
    simp only [getBaseDir] at this
    exact hne (string_append_left_cancel (cacheDir ++ "/") oldName st.name this)

/-- C2 witness: the store was renamed from "old" to "new"; the entry for
key "k" is still present but carries the old base directory, so the
lookup resolves to `none`. -/
theorem getImageOfflinePath_spec_witness :
    getImageOfflinePath ⟨[("k", ⟨5, "cache/old", "k.jpg"⟩)], "new", 259200⟩
      "cache" ⟨some "k", false, "http://x/k.jpg"⟩ = none :=
  (getImageOfflinePath_spec ⟨[("k", ⟨5, "cache/old", "k.jpg"⟩)], "new", 259200⟩
      "cache" ⟨some "k", false, "http://x/k.jpg"⟩).2
    ⟨5, "cache/old", "k.jpg"⟩ "old" (by decide) (by decide) (by decide)

/-- C4: a `_downloadImage` call whose fetch (network transfer or file
write) fails leaves the entry dictionary exactly as it was, performs no
AsyncStorage write, and delivers no handler notification. -/
theorem downloadImage_failure_spec (st : StoreState) (cacheDir : String)
    (now : Nat) (d : Descriptor) (persistOk : Bool) (hs : Handlers) :
    (downloadImage st cacheDir now d false persistOk hs).entries =
        st.entries ∧
    (downloadImage st cacheDir now d false persistOk hs).notifications = [] ∧
    (downloadImage st cacheDir now d false persistOk hs).persistWrites = [] := by
  refine ⟨rfl, rfl, rfl⟩

/-- C5: `_addEntry` sets `createdOn` only when the key has no entry yet;
on a re-download of an existing key it copies the old entry and updates
only `basePath` and `localUriPath`, leaving `createdOn` (and every other
field) unchanged. -/
theorem addEntry_createdOn_spec (es : Entries) (baseDir : String) (now : Nat)
    (hash fn : String) :
    (lookupEntry es hash = none →
      (addEntry es baseDir now hash fn).2 = ⟨now, baseDir, fn⟩ ∧
      lookupEntry (addEntry es baseDir now hash fn).1 hash =
        some ⟨now, baseDir, fn⟩) ∧
    (∀ e, lookupEntry es hash = some e →
      (addEntry es baseDir now hash fn).2 =
        { e with basePath := baseDir, localUriPath := fn } ∧
      lookupEntry (addEntry es baseDir now hash fn).1 hash =
        some { e with basePath := baseDir, localUriPath := fn }) := by
  constructor
  · intro hnone
    refine ⟨?_, ?_⟩ <;> simp [addEntry, hnone, lookupEntry_setEntry_self]
  · intro e hsome
    refine ⟨?_, ?_⟩ <;> simp [addEntry, hsome, lookupEntry_setEntry_self]

/-- C5 witness: re-downloading key "k" (entry created at time 7) at time
99 keeps `createdOn = 7` and updates only the base path and file name. -/
theorem addEntry_createdOn_spec_witness :
    (addEntry [("k", ⟨7, "oldbase", "f.jpg"⟩)] "newbase" 99 "k" "g.jpg").2 =
      ⟨7, "newbase", "g.jpg"⟩ :=
  ((addEntry_createdOn_spec [("k", ⟨7, "oldbase", "f.jpg"⟩)] "newbase" 99
      "k" "g.jpg").2 ⟨7, "oldbase", "f.jpg"⟩ (by decide)).1

/-- C10: when the fetch succeeds but the AsyncStorage write inside
`_updateOfflineStore` throws, no handler is notified for that download,
no durable write lands, yet the new or updated entry is in the in-memory
dictionary. -/
theorem downloadImage_persist_failure_spec (st : StoreState)
    (cacheDir : String) (now : Nat) (d : Descriptor) (hs : Handlers) :
    (downloadImage st cacheDir now d true false hs).notifications = [] ∧
    (downloadImage st cacheDir now d true false hs).persistWrites = [] ∧
    lookupEntry (downloadImage st cacheDir now d true false hs).entries
        (getEntryProps d).hash =
      some (addEntry st.entries (getBaseDir cacheDir st.name) now
        (getEntryProps d).hash
        ((getEntryProps d).hash ++ (getEntryProps d).extension)).2 := by
  refine ⟨rfl, rfl, ?_⟩
  show lookupEntry
      (addEntry st.entries (getBaseDir cacheDir st.name) now
        (getEntryProps d).hash
        ((getEntryProps d).hash ++ (getEntryProps d).extension)).1
      (getEntryProps d).hash = _
  cases hlook : lookupEntry st.entries (getEntryProps d).hash with
  | none =>
    simp only [addEntry, hlook]
    exact lookupEntry_setEntry_self _ _ _
  | some e =>
    simp only [addEntry, hlook]
    exact lookupEntry_setEntry_self _ _ _

/-! ## Sweep claims (C3, C6) -/

def c3Entry : Entry := ⟨0, "base", "file.jpg"⟩

def c3State : StoreState := ⟨[("k", c3Entry)], "app", 10⟩

/-- C3 counterexample: key "k" is marked expired, its unlink fails, and
its entry is NOT removed from the dictionary — the deletion failure does
block removal of the entry (`delete this.entries[uri]` sits in the unlink
`.then` branch; the `.catch` only logs). -/
theorem sweep_unlink_failure_keeps_entry :
    getExpiredImages c3State 100 = ["k"] ∧
    lookupEntry (removeExpiredImages c3State 100
        (fun _ => false)).entries "k" = some c3Entry ∧
    ¬ lookupEntry (removeExpiredImages c3State 100
        (fun _ => false)).entries "k" = none := by
  refine ⟨by decide, by decide, by decide⟩

/-- C3 amended: during the sweep, an expired key's entry is removed from
the in-memory dictionary exactly when deleting its backing file succeeds;
on a deletion failure the failure is only logged and the entry stays in
the dictionary, and entries that are not expired are untouched. -/
theorem sweep_removal_requires_unlink_success (st : StoreState) (now : Nat)
    (unlinkOk : String → Bool) (k : String) (e : Entry)
    (h : lookupEntry st.entries k = some e) :
    lookupEntry (removeExpiredImages st now unlinkOk).entries k =
      if k ∈ getExpiredImages st now ∧ unlinkOk k = true then none
      else some e := by
  by_cases hemp : (getExpiredImages st now).isEmpty
  · have h0 : getExpiredImages st now = [] := by
      simpa [List.isEmpty_iff] using hemp
    simp [removeExpiredImages, hemp, h0, h]
  · have he : (removeExpiredImages st now unlinkOk).entries =
        sweepEntries st now unlinkOk := by
      simp [removeExpiredImages, hemp]
    rw [he]
    unfold sweepEntries
    rw [lookupEntry_sweepFold, h]

/-- C3 amended witness: when the unlink of expired key "k" succeeds, its
entry is removed. -/
theorem sweep_removal_requires_unlink_success_witness :
    lookupEntry (removeExpiredImages c3State 100
        (fun _ => true)).entries "k" = none := by
  rw [sweep_removal_requires_unlink_success c3State 100 (fun _ => true)
    "k" c3Entry (by decide)]
  decide

/-- C6 counterexample: a sweep that marks nothing expired raises the
completion signal without invoking persistence at all — persistence is
not invoked exactly once on every run. -/
theorem sweep_empty_run_never_persists :
    (removeExpiredImages ⟨[], "app", 259200⟩ 0 (fun _ => true)).trace =
      [Event.complete] ∧
    (removeExpiredImages ⟨[], "app", 259200⟩ 0
        (fun _ => true)).trace.countP isPersistEv = 0 := by
  refine ⟨by decide, by decide⟩

/-- C6 amended: when at least one key is expired, the sweep performs
exactly one persistence write, placed after all unlink events and
immediately before the single completion signal; when no key is expired,
the completion signal is raised without any persistence write. -/
theorem sweep_persist_once_spec (st : StoreState) (now : Nat)
    (unlinkOk : String → Bool) :
    (getExpiredImages st now = [] →
      (removeExpiredImages st now unlinkOk).trace = [Event.complete]) ∧
    (getExpiredImages st now ≠ [] →
      (removeExpiredImages st now unlinkOk).trace =
        sweepUnlinkEvents st now unlinkOk ++
          [Event.persist ("@" ++ st.name ++ ":uris")
            (stringifyEntries (removeExpiredImages st now unlinkOk).entries),
           Event.complete] ∧
      (∀ ev ∈ sweepUnlinkEvents st now unlinkOk, isUnlinkEv ev = true) ∧
      (removeExpiredImages st now unlinkOk).trace.countP isPersistEv = 1 ∧
      (removeExpiredImages st now unlinkOk).trace.countP
        (fun ev => decide (ev = Event.complete)) = 1) := by
  constructor
  · intro h0
    simp [removeExpiredImages, h0]
  · intro hne
    have hemp : (getExpiredImages st now).isEmpty = false := by
      simpa [List.isEmpty_iff] using hne
    have hunlink : ∀ ev ∈ sweepUnlinkEvents st now unlinkOk,
        isUnlinkEv ev = true := by
      intro ev hev
      obtain ⟨uri, _, rfl⟩ := List.mem_map.mp hev
      rfl
    have htr : (removeExpiredImages st now unlinkOk).trace =
        sweepUnlinkEvents st now unlinkOk ++
          [Event.persist ("@" ++ st.name ++ ":uris")
            (stringifyEntries (removeExpiredImages st now unlinkOk).entries),
           Event.complete] := by
      simp [removeExpiredImages, hemp]
    refine ⟨htr, hunlink, ?_, ?_⟩
    · rw [htr, List.countP_append]
      have hz : (sweepUnlinkEvents st now unlinkOk).countP isPersistEv = 0 := by
        rw [List.countP_eq_zero]
        intro ev hev
        obtain ⟨uri, _, rfl⟩ := List.mem_map.mp hev
        simp [isPersistEv]
      rw [hz]
      simp [List.countP_cons, isPersistEv]
    · rw [htr, List.countP_append]
      have hz : (sweepUnlinkEvents st now unlinkOk).countP
          (fun ev => decide (ev = Event.complete)) = 0 := by
        rw [List.countP_eq_zero]
        intro ev hev
        obtain ⟨uri, _, rfl⟩ := List.mem_map.mp hev
        simp
      rw [hz]
      simp [List.countP_cons]

def c6State : StoreState := ⟨[("k", ⟨0, "base", "f.jpg"⟩)], "app", 10⟩

/-- C6 amended witness: a sweep with one expired key performs exactly one
persistence write. -/
theorem sweep_persist_once_spec_witness :
    (removeExpiredImages c6State 100
        (fun _ => true)).trace.countP isPersistEv = 1 :=
  ((sweep_persist_once_spec c6State 100 (fun _ => true)).2 (by decide)).2.2.1

/-! ## Notification claims (C7) -/

theorem runHandlers_all_ok (hs : List Handler) (uri path : String)
    (h : ∀ g ∈ hs, g.run uri path = Except.ok ()) :
    runHandlers hs uri path =
      (hs.map fun g => ⟨g.id, uri, path⟩, none) := by
  induction hs with
  | nil => rfl
  | cons g rest ih =>
    have hg := h g (by simp)
    simp [runHandlers, hg, ih fun x hx => h x (by simp [hx])]

theorem runHandlers_stops_at_throw (pre : List Handler) (h : Handler)
    (rest : List Handler) (uri path e : String)
    (hpre : ∀ g ∈ pre, g.run uri path = Except.ok ())
    (hthrow : h.run uri path = Except.error e) :
    runHandlers (pre ++ h :: rest) uri path =
      ((pre ++ [h]).map fun g => ⟨g.id, uri, path⟩, some e) := by
  induction pre with
  | nil => simp [runHandlers, hthrow]
  | cons g pre ih =>
    have hg := hpre g (by simp)
    simp [runHandlers, hg, ih fun x hx => hpre x (by simp [hx])]

def throwingHandler : Handler := ⟨0, fun _ _ => Except.error "boom"⟩

def okHandler : Handler := ⟨1, fun _ _ => Except.ok ()⟩

def c7Registry : Handlers := [("u", [throwingHandler, okHandler])]

/-- C7 counterexample: handler 1 is registered after a handler that
throws; the exception propagates out of `forEach`, so handler 1 is never
invoked — an exception from one handler does prevent the remaining
handlers from running. -/
theorem notify_throw_blocks_rest :
    (notify c7Registry "u" ⟨0, "base", "f.jpg"⟩).1.map Invocation.handlerId =
      [0] ∧
    (notify c7Registry "u" ⟨0, "base", "f.jpg"⟩).2 = some "boom" ∧
    ∀ inv ∈ (notify c7Registry "u" ⟨0, "base", "f.jpg"⟩).1,
      inv.handlerId ≠ 1 := by
  refine ⟨by decide, by decide, by decide⟩

/-- C7 amended: `_notify` invokes the handlers registered for the
identity in registration order, each with the identity and the resolved
local path; when every handler returns, all are invoked, but an exception
from one handler propagates, so exactly the handlers up to and including
the first throwing one run and the rest are skipped. -/
theorem notify_order_and_throw (reg : Handlers) (uri : String)
    (entry : Entry) (handlers : List Handler)
    (hreg : lookupHandlers reg uri = some handlers) :
    ((∀ g ∈ handlers,
        g.run uri (entry.basePath ++ "/" ++ entry.localUriPath) =
          Except.ok ()) →
      (notify reg uri entry).1 = handlers.map fun g =>
        ⟨g.id, uri, entry.basePath ++ "/" ++ entry.localUriPath⟩) ∧
    (∀ pre h rest e, handlers = pre ++ h :: rest →
      (∀ g ∈ pre, g.run uri (entry.basePath ++ "/" ++ entry.localUriPath) =
        Except.ok ()) →
      h.run uri (entry.basePath ++ "/" ++ entry.localUriPath) =
        Except.error e →
      (notify reg uri entry).1 = (pre ++ [h]).map (fun g =>
        ⟨g.id, uri, entry.basePath ++ "/" ++ entry.localUriPath⟩) ∧
      (notify reg uri entry).2 = some e) := by
  constructor
  · intro hok
    cases handlers with
    | nil => simp [notify, hreg]
    | cons g gs =>
      simp only [notify, hreg]
      rw [if_pos (by simp), runHandlers_all_ok _ _ _ hok]
  · intro pre h rest e heq hpre hthrow
    subst heq
    have hlen : (pre ++ h :: rest).length > 0 := by simp
    have hrun := runHandlers_stops_at_throw pre h rest uri
      (entry.basePath ++ "/" ++ entry.localUriPath) e hpre hthrow
    constructor
    · simp only [notify, hreg]
      rw [if_pos hlen, hrun]
    · simp only [notify, hreg]
      rw [if_pos hlen, hrun]

/-- C7 amended witness: with the throwing handler registered first, only
it is invoked, with the resolved local path, and its exception
propagates. -/
theorem notify_order_and_throw_witness :
    (notify c7Registry "u" ⟨0, "base", "f.jpg"⟩).1 =
      [⟨0, "u", "base/f.jpg"⟩] ∧
    (notify c7Registry "u" ⟨0, "base", "f.jpg"⟩).2 = some "boom" := by
  have h := (notify_order_and_throw c7Registry "u" ⟨0, "base", "f.jpg"⟩
      [throwingHandler, okHandler] rfl).2 [] throwingHandler [okHandler]
      "boom" rfl (by simp) rfl
  exact ⟨h.1.trans (by decide), h.2⟩

/-! ## Concurrency claim (C8) -/

def c8Descriptor : Descriptor := ⟨none, false, "https://example.com/a.png"⟩

def c8Store : StoreState := ⟨[], "app", 259200⟩

/-- C8, evaluated at the failing input: two requests for the same
uncached uri that both start before either fetch completes each issue
their own download — the count is 2, not at most 1.  `_getImage` decides
from `this.entries` alone, which is mutated only in a fetch completion
callback, and the store keeps no in-flight download bookkeeping. -/
theorem concurrent_subscribe_duplicates_download :
    concurrentDownloads c8Store "cache"
      [(c8Descriptor, false), (c8Descriptor, false)] = 2 ∧
    ¬ concurrentDownloads c8Store "cache"
      [(c8Descriptor, false), (c8Descriptor, false)] ≤ 1 := by
  refine ⟨by decide, by decide⟩

/-! ## Persistence-key claim (C9) -/

/-- C9 counterexample: for namespace "app" every AsyncStorage key the
store uses is "@app:uris" — with a leading at-sign — which differs from
the claimed key "app:uris". -/
theorem storage_key_has_at_sign :
    (updateAsyncStorageWrite ⟨[], "app", 259200⟩).1 = "@app:uris" ∧
    restoreReadKey "app" = "@app:uris" ∧
    updateOfflineStoreKey "app" = "@app:uris" ∧
    ¬ (updateAsyncStorageWrite ⟨[], "app", 259200⟩).1 = "app" ++ ":uris" := by
  refine ⟨by decide, by decide, by decide, by decide⟩

/-- C9 amended: every AsyncStorage read and write uses exactly the key
"@" ++ name ++ ":uris" (the template literal prefixes the store name with
an at-sign), and persistence serializes the full entry dictionary as one
JSON blob under that key. -/
theorem storage_key_spec (st : StoreState) :
    (updateAsyncStorageWrite st).1 = "@" ++ st.name ++ ":uris" ∧
    (updateAsyncStorageWrite st).2 = stringifyEntries st.entries ∧
    restoreReadKey st.name = "@" ++ st.name ++ ":uris" ∧
    updateOfflineStoreKey st.name = "@" ++ st.name ++ ":uris" ∧
    (∀ cacheDir now d hs,
      (downloadImage st cacheDir now d true true hs).persistWrites =
        [("@" ++ st.name ++ ":uris",
          stringifyEntries
            (downloadImage st cacheDir now d true true hs).entries)]) ∧
    (∀ now unlinkOk k v,
      Event.persist k v ∈ (removeExpiredImages st now unlinkOk).trace →
      k = "@" ++ st.name ++ ":uris" ∧
      v = stringifyEntries (removeExpiredImages st now unlinkOk).entries) := by
  refine ⟨rfl, rfl, rfl, rfl, fun cacheDir now d hs => rfl, ?_⟩
  intro now unlinkOk k v hmem
  by_cases hemp : (getExpiredImages st now).isEmpty
  · simp [removeExpiredImages, hemp] at hmem
  · have hmem' : Event.persist k v ∈
        sweepUnlinkEvents st now unlinkOk ++
          [Event.persist ("@" ++ st.name ++ ":uris")
            (stringifyEntries (sweepEntries st now unlinkOk)),
           Event.complete] := by
      simpa [removeExpiredImages, hemp] using hmem
    have hent : (removeExpiredImages st now unlinkOk).entries =
        sweepEntries st now unlinkOk := by
      simp [removeExpiredImages, hemp]
    rcases List.mem_append.mp hmem' with h | h
    · exfalso
      obtain ⟨uri, _, hcon⟩ := List.mem_map.mp h
      simp at hcon
    · rw [hent]
      simp at h
      exact ⟨h.1, h.2⟩

def c9State : StoreState := ⟨[("k", ⟨0, "base", "f.jpg"⟩)], "app", 10⟩

/-- C9 amended witness: the persistence write of a concrete sweep carries
the at-prefixed key and the serialized (now empty) dictionary. -/
theorem storage_key_spec_witness :
    "@app:uris" = "@" ++ c9State.name ++ ":uris" ∧
    stringifyEntries [] =
      stringifyEntries
        (removeExpiredImages c9State 100 (fun _ => true)).entries :=
  (storage_key_spec c9State).2.2.2.2.2 100 (fun _ => true) "@app:uris"
    (stringifyEntries []) (by decide)

end OfflineStore
